import Mathlib

/-!
Verification model of `gcodetohpgl.py` (PlotPCB): the G-code to HPGL
translation state machine, the job sequencer of `main`, and the replay
loop.  Python strings are modelled as `String` / `List Char`; the decimal
literals the program manipulates (`float(...)`, products with the
calibration factor, offsets) are modelled exactly by `Dec`, an integer
mantissa over a power-of-ten denominator, which is closed under every
arithmetic operation the program performs; `Dec.toRat` relates the model
to the real-number formulas of the design document.  Fallible Python code
(uncaught exceptions, `sys.exit`) is modelled with `Except PyErr`.
-/

namespace PlotPCB

/-- Characters after dropping leading and trailing whitespace
(Python `str.strip`). -/
def trimWs (l : List Char) : List Char :=
  ((l.dropWhile Char.isWhitespace).reverse.dropWhile Char.isWhitespace).reverse

/-- Value of a list of decimal digit characters. -/
def digitsVal (l : List Char) : Nat :=
  l.foldl (fun a c => 10 * a + (c.toNat - 48)) 0

/-- Boolean list-prefix test (Python `str.startswith`, and the anchoring of
`re.match`). -/
def hasPrefixL : List Char → List Char → Bool
  | [], _ => true
  | _ :: _, [] => false
  | a :: as, b :: bs => a = b && hasPrefixL as bs

/-- Boolean substring test (Python `pat in s`). -/
def hasSubstrL (pat : List Char) : List Char → Bool
  | [] => pat.isEmpty
  | c :: cs => hasPrefixL pat (c :: cs) || hasSubstrL pat cs

/-- Split on a single separator character (Python `str.split(sep)` for a
one-character separator): `""` splits to `[""]`, separators delimit
possibly empty fields. -/
def splitOnCharL (sep : Char) : List Char → List (List Char)
  | [] => [[]]
  | c :: cs =>
    match splitOnCharL sep cs with
    | h :: t => if c = sep then [] :: h :: t else (c :: h) :: t
    | [] => if c = sep then [[], []] else [[c]]

/-- Exact decimal number `num / 10 ^ exp`.  Every numeric value flowing
through the program (parsed operands, calibration factor, offsets, dwell
durations and their products and sums) is such a decimal, so this type is
closed under the arithmetic the program performs and models it exactly. -/
structure Dec where
  num : Int
  exp : Nat
  deriving DecidableEq, Repr

/-- The rational value denoted by a `Dec`. -/
def Dec.toRat (d : Dec) : ℚ := (d.num : ℚ) / (10 : ℚ) ^ d.exp

/-- Exact decimal addition (common power-of-ten denominator). -/
def Dec.add (a b : Dec) : Dec :=
  ⟨a.num * (10 : Int) ^ (max a.exp b.exp - a.exp) +
   b.num * (10 : Int) ^ (max a.exp b.exp - b.exp), max a.exp b.exp⟩

/-- Exact decimal multiplication. -/
def Dec.mul (a b : Dec) : Dec := ⟨a.num * b.num, a.exp + b.exp⟩

/-- Python `int()` on a decimal value: truncation toward zero. -/
def Dec.trunc (d : Dec) : Int :=
  if 0 ≤ d.num then d.num / (10 : Int) ^ d.exp
  else -((-d.num) / (10 : Int) ^ d.exp)

/-- Python `'%.0f'` rounding: round to nearest integer, ties to even. -/
def Dec.roundHE (d : Dec) : Int :=
  let p : Int := (10 : Int) ^ d.exp
  let fl : Int := d.num.fdiv p
  let r : Int := d.num - p * fl
  if 2 * r < p then fl
  else if p < 2 * r then fl + 1
  else if fl % 2 = 0 then fl else fl + 1

/-- Truncation toward zero of a rational, the idealised meaning of Python
`int()` used by the design document's coordinate formula. -/
def pyInt (q : ℚ) : Int := if 0 ≤ q then ⌊q⌋ else -⌊-q⌋

/-- Parse an unsigned decimal numeral (digits, optionally a point and more
digits, at least one digit in total), the shape taken by every numeric
field of the supported G-code subset; models Python `float()` on such
strings exactly. -/
def parseUDec (l : List Char) : Option Dec :=
  let ip := l.takeWhile Char.isDigit
  match l.dropWhile Char.isDigit with
  | [] => if ip.isEmpty then none else some ⟨(digitsVal ip : Nat), 0⟩
  | '.' :: rest2 =>
    let fp := rest2.takeWhile Char.isDigit
    if (rest2.dropWhile Char.isDigit).isEmpty then
      if ip.isEmpty && fp.isEmpty then none
      else some ⟨((digitsVal ip * 10 ^ fp.length + digitsVal fp : Nat) : Int), fp.length⟩
    else none
  | _ => none

/-- Python `float()`: strips surrounding whitespace, optional sign, then a
decimal numeral; failure is a `ValueError`. -/
def pyFloat (l : List Char) : Option Dec :=
  match trimWs l with
  | '-' :: rest => (parseUDec rest).map (fun d => ⟨-d.num, d.exp⟩)
  | '+' :: rest => parseUDec rest
  | l2 => parseUDec l2

/-! ### Machine configuration (module-level constants of the script) -/

/-- Protomat C30s steps per mm, `calfactor = 133.33`. -/
def calfactor : Dec := ⟨13333, 2⟩

/-- Hard clip step limit, x axis. -/
def xmax : Int := 42000

/-- Hard clip step limit, y axis. -/
def ymax : Int := 24000

/-- Board start offset, x, `xoff = 0.1`. -/
def xoff : Dec := ⟨1, 1⟩

/-- Board start offset, y, `yoff = 0.1`. -/
def yoff : Dec := ⟨1, 1⟩

/-- Milling feed in um/s. -/
def mill_feed : Int := 12000

/-- Spindle speed in krpm. -/
def spindle_speed : Int := 32

/-! ### Translation state and errors -/

/-- Coordinate mode (`mode` global, `'abs'` / `'rel'`). -/
inductive Mode where
  | absolute
  | relative
  deriving DecidableEq, Repr

/-- The mutable translation state of the script: the `mode` global, the
position accumulators `parse_move.x` / `parse_move.y` attached to
`parse_move`, and the `drill_dwell` global. -/
structure TransState where
  mode : Mode
  x : Int
  y : Int
  drill_dwell : Dec
  deriving DecidableEq, Repr

/-- State at the start of `main`: absolute mode, position accumulators 0,
`drill_dwell = 0.7`. -/
def initState : TransState := { mode := .absolute, x := 0, y := 0, drill_dwell := ⟨7, 1⟩ }

/-- Abnormal terminations of the script.  `attributeError` is the crash of
`xycmd.group(...)` when `re.match` returned `None`; `valueError` is
`float()` on a malformed numeral; `unsupportedUnits` is the exception
raised by `change_units('in')`; `outOfBounds axis value limit` is the
bed-limit check that prints its message and calls `sys.exit(12)`. -/
inductive PyErr where
  | attributeError
  | valueError
  | unsupportedUnits
  | outOfBounds (axis : Char) (value : Int) (limit : Int)
  deriving DecidableEq, Repr

/-! ### Regular-expression models (the specific anchored patterns used) -/

/-- Model of `re.match(r"G0[01] X(\S*) Y(\S*).*", gcode)`: the two greedy
`\S*` groups each take the maximal run of non-whitespace characters (the
required literal after each is a space, so the greedy match never
backtracks), and the trailing `.*` imposes nothing. -/
def matchMoveChars : List Char → Option (List Char × List Char)
  | 'G' :: '0' :: d :: ' ' :: 'X' :: rest =>
    if d = '0' ∨ d = '1' then
      let g1 := rest.takeWhile (fun c => !c.isWhitespace)
      match rest.dropWhile (fun c => !c.isWhitespace) with
      | ' ' :: 'Y' :: r2 => some (g1, r2.takeWhile (fun c => !c.isWhitespace))
      | _ => none
    else none
  | _ => none

/-- Model of `re.match(r"G0[01] Z(\S*).*", gcode)`. -/
def matchZChars : List Char → Option (List Char)
  | 'G' :: '0' :: d :: ' ' :: 'Z' :: rest =>
    if d = '0' ∨ d = '1' then some (rest.takeWhile (fun c => !c.isWhitespace))
    else none
  | _ => none

/-- The greedy `(.*)\)` group of the tool-change pattern: everything up to
the last `')'`; fails when no `')'` is present. -/
def splitAtLastParen (l : List Char) : Option (List Char) :=
  match l.reverse.dropWhile (fun c => c != ')') with
  | _ :: before => some before.reverse
  | [] => none

/-- Model of `re.match(r"M06 T([0-9]*) \((.*)\).*", gcode)`. -/
def matchToolChars : List Char → Option (List Char × List Char)
  | 'M' :: '0' :: '6' :: ' ' :: 'T' :: rest =>
    let tool := rest.takeWhile Char.isDigit
    match rest.dropWhile Char.isDigit with
    | ' ' :: '(' :: r2 => (splitAtLastParen r2).map (fun size => (tool, size))
    | _ => none
  | _ => none

/-! ### Per-command translation functions -/

/-- `change_units`: inch units raise an exception, mm is a no-op. -/
def change_units (new : String) : Except PyErr Unit :=
  if new = "in" then .error .unsupportedUnits else .ok ()

/-- The output produced when `change_mode` leaves relative mode: an `OS;`
status request followed by the sync pseudo-command line. -/
def syncOutput : String := "OS;" ++ "\nCO \"wait for position response\"\n"

/-- `change_mode`: returns `''` when the requested mode equals the current
one; otherwise, when the current mode is `'rel'`, emits `syncOutput`, and
in every case records the new mode. -/
def change_mode (new : Mode) (st : TransState) : String × TransState :=
  if st.mode = new then ("", st)
  else if st.mode = .relative then (syncOutput, { st with mode := new })
  else ("", { st with mode := new })

/-- `parse_move`: match the XY pattern (crashing with an `AttributeError`
when it does not match), scale operands by `calfactor` (adding the board
offset in absolute mode), truncate with `int()`, check the bed limits
(`sys.exit(12)` past them), emit `PA`/`PR` text, and add the new
coordinates onto the position accumulators (`parse_move.x += newx`, in
both modes). -/
def parse_move (gcode : List Char) (st : TransState) : Except PyErr (String × TransState) :=
  match matchMoveChars gcode with
  | none => .error .attributeError
  | some (g1, g2) =>
    match pyFloat g1 with
    | none => .error .valueError
    | some fx =>
      match pyFloat g2 with
      | none => .error .valueError
      | some fy =>
        match st.mode with
        | .absolute =>
          let newx := (calfactor.mul (xoff.add fx)).trunc
          let newy := (calfactor.mul (yoff.add fy)).trunc
          if xmax < newx then .error (.outOfBounds 'X' newx xmax)
          else if ymax < newy then .error (.outOfBounds 'Y' newy ymax)
          else
            .ok ("PA" ++ toString newx ++ "," ++ toString newy ++ ";",
              { st with x := st.x + newx, y := st.y + newy })
        | .relative =>
          let newx := (calfactor.mul fx).trunc
          let newy := (calfactor.mul fy).trunc
          if xmax < st.x + newx then .error (.outOfBounds 'X' (st.x + newx) xmax)
          else if ymax < st.y + newy then .error (.outOfBounds 'Y' (st.y + newy) ymax)
          else
            .ok ("PR" ++ toString (st.x + newx) ++ "," ++ toString (st.y + newy) ++ ";",
              { st with x := st.x + newx, y := st.y + newy })

/-- Render `'!TW%.0f;' % t`. -/
def twCmd (t : Dec) : String := "!TW" ++ toString t.roundHE ++ ";"

/-- `parse_z`: operand `<= 0` lowers the pen (appending the drill dwell
wait while drilling), `> 0` raises it.  The Python builds the dwell line
`'G04 P%s' % drill_dwell` and re-parses it through `parse_dwell`; for the
exact decimals modelled here that round trip is the identity, so the dwell
wait is `'!TW%.0f;'` of `drill_dwell * 1000` directly. -/
def parse_z (gcode : List Char) (drill : Bool) (st : TransState) : Except PyErr String :=
  match matchZChars gcode with
  | none => .error .attributeError
  | some g =>
    match pyFloat g with
    | none => .error .valueError
    | some z =>
      if z.num ≤ 0 then
        .ok (if drill then "PD;" ++ twCmd (st.drill_dwell.mul ⟨1000, 0⟩) else "PD;")
      else .ok "PU;"

/-- The slice `line[line.find('P') + 1:]`: everything after the first
`'P'`, or the whole line when there is none (`find` returns `-1`). -/
def afterP (l : List Char) : List Char :=
  match l.dropWhile (fun c => c != 'P') with
  | _ :: rest => rest
  | [] => l

/-- `parse_dwell`: seconds after the `P`, times 1000, rendered with
`'!TW%.0f;'`. -/
def parse_dwell (line : List Char) : Except PyErr String :=
  match pyFloat (afterP line) with
  | none => .error .valueError
  | some t => .ok (twCmd (t.mul ⟨1000, 0⟩))

/-- `parse_tool_change`: match the `M06` pattern (crashing with an
`AttributeError` otherwise), emit the park move and the tool pseudo-command
line, and when the size label is not a reserved keyword reinterpret it as a
drill diameter, setting `drill_dwell = 20 * float(size)`. -/
def parse_tool_change (gcode : List Char) (st : TransState) : Except PyErr (String × TransState) :=
  match matchToolChars gcode with
  | none => .error .attributeError
  | some (toolC, sizeC) =>
    let tool := String.mk (trimWs toolC)
    let size := String.mk (trimWs sizeC)
    let hpgl := "PA0,0;\nCO \"Insert tool #" ++ tool ++ ": size " ++ size ++ "\"\n"
    if size = "routing" ∨ size = "milling" then .ok (hpgl, st)
    else
      match pyFloat (trimWs sizeC) with
      | none => .error .valueError
      | some d => .ok (hpgl, { st with drill_dwell := Dec.mul ⟨20, 0⟩ d })

/-- `parse_spindle`: spindle on at the configured speed, or off. -/
def parse_spindle (start : Bool) : String :=
  if start then "!OC;!RM" ++ toString spindle_speed ++ ";!CC;" else "!RM0;"

/-- `parse_line`: dispatch one trimmed input line on its op-code prefix;
unrecognized lines produce nothing. -/
def parse_line (line : List Char) (drill : Bool) (st : TransState) :
    Except PyErr (String × TransState) :=
  if hasPrefixL "G20".toList line then
    match change_units "in" with
    | .error e => .error e
    | .ok _ => .ok ("", st)
  else if hasPrefixL "G21".toList line then
    match change_units "mm" with
    | .error e => .error e
    | .ok _ => .ok ("", st)
  else if hasPrefixL "G90".toList line then .ok (change_mode .absolute st)
  else if hasPrefixL "G91".toList line then .ok (change_mode .relative st)
  else if hasPrefixL "G00".toList line || hasPrefixL "G01".toList line then
    if line.contains 'Z' then (parse_z line drill st).map (fun h => (h, st))
    else parse_move line st
  else if hasPrefixL "G04".toList line then (parse_dwell line).map (fun h => (h, st))
  else if hasPrefixL "M03".toList line then .ok (parse_spindle true, st)
  else if hasPrefixL "M05".toList line then .ok (parse_spindle false, st)
  else if hasPrefixL "M06".toList line then parse_tool_change line st
  else .ok ("", st)

/-! ### Job sequencing (the HPGL-generation section of `main`) -/

/-- One phase's file loop in `main`: strip each line, skip comment lines
beginning `'('`, translate the rest in order, concatenating the produced
HPGL; an abnormal termination abandons the run (nothing is handed on). -/
def processLines (lines : List String) (drill : Bool) (st : TransState) :
    Except PyErr (String × TransState) :=
  match lines with
  | [] => .ok ("", st)
  | l :: rest =>
    if hasPrefixL "(".toList (trimWs l.toList) then processLines rest drill st
    else
      match parse_line (trimWs l.toList) drill st with
      | .error e => .error e
      | .ok (h, st1) =>
        match processLines rest drill st1 with
        | .error e => .error e
        | .ok (acc, st2) => .ok (h ++ acc, st2)

/-- The input sources handed to `main` by the file-discovery collaborator
(globbing and layer-name resolution are outside the modelled core): at most
one drill file's lines, the route files' lines with the near-side one
first, and the lines of the far-side mill file when one exists. -/
structure JobInputs where
  drills : Option (List String)
  routes : List (List String)
  farMill : Option (List String)

/-- The fixed protocol preamble written once before any phase. -/
def preamble : String :=
  "IN;!CT1;VS" ++ toString mill_feed ++ ";!OC;!SV140;!SM32;!WR0,8,8;!CC;!CM1;"

/-- The three writes between the near-side and far-side phases: spindle
off, pen up, and the board-flip pseudo-command line. -/
def flipBoundary : String :=
  parse_spindle false ++ "PU;" ++ "\nCO \"Please flip board.\"\n"

/-- The fixed postamble written at the end of generation. -/
def postamble : String := "!OC;!RM0;!CC;PU;"

/-- The four translated phase outputs of `main`, in source order: the drill
phase; the routing tool change plus near-side route phase; the far-side
route phase; the milling tool change plus mill phase.  State (mode,
position accumulators, dwell) threads through all phases in this order;
an abnormal termination anywhere abandons the run. -/
def phases (job : JobInputs) : Except PyErr (String × String × String × String) :=
  match (match job.drills with
         | some ls => processLines ls true initState
         | none => .ok ("", initState) : Except PyErr (String × TransState)) with
  | .error e => .error e
  | .ok (s1, st1) =>
    match (match job.routes with
           | [] => .ok ("", st1)
           | near :: _ =>
             match parse_tool_change "M06 T98 (routing )".toList st1 with
             | .error e => .error e
             | .ok (t, sta) =>
               match processLines near false sta with
               | .error e => .error e
               | .ok (b, stb) => .ok (t ++ b, stb) : Except PyErr (String × TransState)) with
    | .error e => .error e
    | .ok (s2, st2) =>
      match (match job.routes with
             | _ :: far :: _ => processLines far false st2
             | _ => .ok ("", st2) : Except PyErr (String × TransState)) with
      | .error e => .error e
      | .ok (s4, st4) =>
        match (match job.farMill with
               | some ls =>
                 match parse_tool_change "M06 T99 (milling )".toList st4 with
                 | .error e => .error e
                 | .ok (t, sta) =>
                   match processLines ls false sta with
                   | .error e => .error e
                   | .ok (b, stb) => .ok (t ++ b, stb)
               | none => .ok ("", st4) : Except PyErr (String × TransState)) with
        | .error e => .error e
        | .ok (s5, _) => .ok (s1, s2, s4, s5)

/-- The HPGL-generation section of `main`: the buffer written to
`hpgl_file` is the preamble, the drill output, the near-route output, the
unconditional flip-boundary writes of lines 322-325, the far-route output,
the mill output, and the postamble, concatenated in that write order. -/
def buildBuffer (job : JobInputs) : Except PyErr String :=
  match phases job with
  | .error e => .error e
  | .ok (s1, s2, s4, s5) =>
    .ok (preamble ++ s1 ++ s2 ++ flipBoundary ++ s4 ++ s5 ++ postamble)

/-! ### Replay (the RS-232 control section of `main`) -/

/-- What the replay loop does with one unit: transmit its text plus `';'`
over the channel (`send_cmd`), block on a tool-change prompt, block on a
board-flip prompt — or nothing. -/
inductive ReplayEvent where
  | transmit (data : String)
  | blockTool (cmd : String)
  | blockFlip
  deriving DecidableEq, Repr

/-- The body of the replay loop for one command unit: empty units are
skipped; a unit starting `CO` is intercepted — blocking on the operator
when its text mentions `tool` or `flip`, silently dropped otherwise — and
every other unit is written to the channel with `';'` re-appended. -/
def processCommand (command : List Char) : Option ReplayEvent :=
  if command.isEmpty then none
  else if hasPrefixL "CO".toList command then
    if hasSubstrL "tool".toList command then some (.blockTool (String.mk command))
    else if hasSubstrL "flip".toList command then some .blockFlip
    else none
  else some (.transmit (String.mk (command ++ [';'])))

/-- The atomic units of a command buffer, in replay order: the buffer is
split on newlines and each line on `';'`. -/
def commandsOf (buf : String) : List (List Char) :=
  ((splitOnCharL '\n' buf.toList).map (splitOnCharL ';')).flatten

/-- The ordered replay events of a whole buffer; no state crosses lines, so
the nested loops are the flat traversal of `commandsOf`. -/
def replayBuffer (buf : String) : List ReplayEvent :=
  (commandsOf buf).filterMap processCommand

/-- The byte strings actually written to the channel during replay. -/
def channelWrites (buf : String) : List String :=
  (replayBuffer buf).filterMap (fun e => match e with | .transmit s => some s | _ => none)

/-- Translation followed by replay: a fatal translation error means no
buffer is ever handed to the replay loop. -/
def runJob (job : JobInputs) : Except PyErr (List ReplayEvent) :=
  match buildBuffer job with
  | .error e => .error e
  | .ok buf => .ok (replayBuffer buf)

end PlotPCB

namespace PlotPCB

/-! ### Helper lemmas -/

/-- String concatenation is associative. -/
theorem strAppend_assoc (a b c : String) : a ++ b ++ c = a ++ (b ++ c) := by
  cases a with
  | mk la =>
    cases b with
    | mk lb =>
      cases c with
      | mk lc => exact String.ext (by simp)

/-- Rescaling a power-of-ten fraction to a larger denominator. -/
theorem rescaleQ (n : ℚ) (e m : ℕ) (h : e ≤ m) :
    n * (10 : ℚ) ^ (m - e) / (10 : ℚ) ^ m = n / (10 : ℚ) ^ e := by
  have hm : (10 : ℚ) ^ m = (10 : ℚ) ^ e * (10 : ℚ) ^ (m - e) := by
    rw [← pow_add, Nat.add_sub_cancel' h]
  rw [hm, mul_div_mul_right _ _ (by positivity)]

/-- `Dec.add` denotes rational addition. -/
theorem Dec.toRat_add (a b : Dec) : (a.add b).toRat = a.toRat + b.toRat := by
  unfold Dec.add Dec.toRat
  push_cast
  rw [add_div, rescaleQ _ _ _ (Nat.le_max_left _ _), rescaleQ _ _ _ (Nat.le_max_right _ _)]

/-- `Dec.mul` denotes rational multiplication. -/
theorem Dec.toRat_mul (a b : Dec) : (a.mul b).toRat = a.toRat * b.toRat := by
  unfold Dec.mul Dec.toRat
  push_cast
  rw [pow_add, ← div_mul_div_comm]

/-- `Dec.trunc` is truncation toward zero of the denoted rational. -/
theorem Dec.trunc_toRat (d : Dec) : d.trunc = pyInt d.toRat := by
  unfold Dec.trunc Dec.toRat pyInt
  have hp : (0 : ℚ) < (10 : ℚ) ^ d.exp := by positivity
  have hcast : ((10 : ℚ) ^ d.exp) = (((10 : ℕ) ^ d.exp : ℕ) : ℚ) := by push_cast; ring
  by_cases h : 0 ≤ d.num
  · rw [if_pos h, if_pos (div_nonneg (by exact_mod_cast h) hp.le)]
    rw [hcast, Rat.floor_intCast_div_natCast]
    push_cast
    ring
  · have hneg : (d.num : ℚ) / (10 : ℚ) ^ d.exp < 0 :=
      div_neg_of_neg_of_pos (by exact_mod_cast (not_le.1 h)) hp
    rw [if_neg h, if_neg (not_le.2 hneg)]
    rw [← neg_div, show (-(d.num : ℚ)) = ((-d.num : ℤ) : ℚ) by push_cast; ring]
    rw [hcast, Rat.floor_intCast_div_natCast]
    push_cast
    ring

/-- Unfolding equation for an in-bounds absolute-mode move. -/
theorem parse_move_absEq (cs g1 g2 : List Char) (fx fy : Dec) (st : TransState)
    (hm : matchMoveChars cs = some (g1, g2)) (hmode : st.mode = .absolute)
    (hfx : pyFloat g1 = some fx) (hfy : pyFloat g2 = some fy)
    (hx : (calfactor.mul (xoff.add fx)).trunc ≤ xmax)
    (hy : (calfactor.mul (yoff.add fy)).trunc ≤ ymax) :
    parse_move cs st = .ok
      ("PA" ++ toString (calfactor.mul (xoff.add fx)).trunc ++ "," ++
        toString (calfactor.mul (yoff.add fy)).trunc ++ ";",
       { st with x := st.x + (calfactor.mul (xoff.add fx)).trunc,
                 y := st.y + (calfactor.mul (yoff.add fy)).trunc }) := by
  unfold parse_move
  simp only [hm, hfx, hfy, hmode]
  rw [if_neg (not_lt.2 hx), if_neg (not_lt.2 hy)]

/-- Unfolding equation for an in-bounds relative-mode move. -/
theorem parse_move_relEq (cs g1 g2 : List Char) (fx fy : Dec) (st : TransState)
    (hm : matchMoveChars cs = some (g1, g2)) (hmode : st.mode = .relative)
    (hfx : pyFloat g1 = some fx) (hfy : pyFloat g2 = some fy)
    (hx : st.x + (calfactor.mul fx).trunc ≤ xmax)
    (hy : st.y + (calfactor.mul fy).trunc ≤ ymax) :
    parse_move cs st = .ok
      ("PR" ++ toString (st.x + (calfactor.mul fx).trunc) ++ "," ++
        toString (st.y + (calfactor.mul fy).trunc) ++ ";",
       { st with x := st.x + (calfactor.mul fx).trunc,
                 y := st.y + (calfactor.mul fy).trunc }) := by
  unfold parse_move
  simp only [hm, hfx, hfy, hmode]
  rw [if_neg (not_lt.2 hx), if_neg (not_lt.2 hy)]

/-- When a prefix of the lines translates successfully and the next line
(a non-comment) fails, the whole phase fails with that error: no line after
it is processed and no output is produced. -/
theorem processLines_error_propagates (pre post : List String) (line : String) (drill : Bool)
    (st0 st1 : TransState) (buf : String) (e : PyErr)
    (hpre : processLines pre drill st0 = .ok (buf, st1))
    (hnc : hasPrefixL "(".toList (trimWs line.toList) = false)
    (hline : parse_line (trimWs line.toList) drill st1 = .error e) :
    processLines (pre ++ line :: post) drill st0 = .error e := by
  induction pre generalizing st0 buf with
  | nil =>
    have hpair : ("", st0) = (buf, st1) := Except.ok.inj hpre
    injection hpair with hb hs
    subst hs
    rw [List.nil_append]
    unfold processLines
    rw [hnc, if_neg (by decide : ¬false = true), hline]
  | cons l rest ih =>
    rw [List.cons_append]
    unfold processLines at hpre ⊢
    by_cases hc : hasPrefixL "(".toList (trimWs l.toList) = true
    · rw [if_pos hc] at hpre ⊢
      exact ih st0 buf hpre
    · rw [if_neg hc] at hpre ⊢
      cases hp : parse_line (trimWs l.toList) drill st0 with
      | error e2 =>
        rw [hp] at hpre
        exact Except.noConfusion hpre
      | ok p =>
        obtain ⟨h, sta⟩ := p
        rw [hp] at hpre
        have hpre2 : (match processLines rest drill sta with
            | .error e2 => .error e2
            | .ok (acc, st2) => .ok (h ++ acc, st2)) =
            (.ok (buf, st1) : Except PyErr (String × TransState)) := hpre
        cases hq : processLines rest drill sta with
        | error e2 =>
          rw [hq] at hpre2
          exact Except.noConfusion hpre2
        | ok q =>
          obtain ⟨acc, st2⟩ := q
          rw [hq] at hpre2
          have hpair : (h ++ acc, st2) = (buf, st1) := Except.ok.inj hpre2
          injection hpair with hb hs
          subst hs
          have hres : (match processLines (rest ++ line :: post) drill sta with
              | .error e2 => .error e2
              | .ok (acc, st2) => .ok (h ++ acc, st2)) =
              (.error e : Except PyErr (String × TransState)) := by
            rw [ih sta acc hq]
          exact hres

/-- A command with the `CO` marker prefix is nonempty. -/
theorem isEmpty_false_of_marker (c : List Char) (h : hasPrefixL "CO".toList c = true) :
    c.isEmpty = false := by
  cases c with
  | nil => exact absurd h (by decide)
  | cons a as => rfl

/-- What reaches the channel from a list of command units: exactly the
nonempty units without the marker prefix, in order, each with `';'`
re-appended. -/
theorem writes_of_commands (cs : List (List Char)) :
    (cs.filterMap processCommand).filterMap
        (fun e => match e with | .transmit s => some s | _ => none) =
      (cs.filter (fun c => !c.isEmpty && !hasPrefixL "CO".toList c)).map
        (fun c => String.mk (c ++ [';'])) := by
  induction cs with
  | nil => rfl
  | cons c rest ih =>
    cases h1 : c.isEmpty with
    | true =>
      have hc : processCommand c = none := by
        unfold processCommand
        rw [h1]
        rfl
      have hflt : (!c.isEmpty && !hasPrefixL "CO".toList c) = false := by rw [h1]; rfl
      rw [List.filterMap_cons_none hc, ih, List.filter_cons, hflt]
      rfl
    | false =>
      cases h2 : hasPrefixL "CO".toList c with
      | false =>
        have hc : processCommand c = some (.transmit (String.mk (c ++ [';']))) := by
          unfold processCommand
          rw [h1, h2]
          rfl
        have hflt : (!c.isEmpty && !hasPrefixL "CO".toList c) = true := by rw [h1, h2]; rfl
        rw [List.filterMap_cons_some hc, List.filterMap_cons_some (by rfl), ih,
          List.filter_cons, hflt]
        rfl
      | true =>
        have hflt : (!c.isEmpty && !hasPrefixL "CO".toList c) = false := by rw [h1, h2]; rfl
        cases h3 : hasSubstrL "tool".toList c with
        | true =>
          have hc : processCommand c = some (.blockTool (String.mk c)) := by
            unfold processCommand
            rw [h1, h2, h3]
            rfl
          rw [List.filterMap_cons_some hc, List.filterMap_cons_none (by rfl), ih,
            List.filter_cons, hflt]
          rfl
        | false =>
          cases h4 : hasSubstrL "flip".toList c with
          | true =>
            have hc : processCommand c = some .blockFlip := by
              unfold processCommand
              rw [h1, h2, h3, h4]
              rfl
            rw [List.filterMap_cons_some hc, List.filterMap_cons_none (by rfl), ih,
              List.filter_cons, hflt]
            rfl
          | false =>
            have hc : processCommand c = none := by
              unfold processCommand
              rw [h1, h2, h3, h4]
              rfl
            rw [List.filterMap_cons_none hc, ih, List.filter_cons, hflt]
            rfl

end PlotPCB

namespace PlotPCB

/-! ### Claim theorems -/

/-- C1 (counterexample): the claim's direction is reversed in the code.
Switching from Absolute into Relative mode emits nothing (not a sync
marker), while switching from Relative into Absolute emits the sync
output. -/
theorem mode_change_direction_cex :
    (change_mode Mode.relative initState).1 = ""
    ∧ (change_mode Mode.absolute { initState with mode := Mode.relative }).1 = syncOutput
    ∧ syncOutput ≠ "" := by
  refine ⟨rfl, rfl, ?_⟩
  decide

/-- C1 (amended): a mode change to the current mode is a no-op with empty
output; every transition out of Relative mode (Relative to Absolute) emits
exactly the sync output (`OS;` plus the sync marker line) before recording
the new mode; every transition from Absolute into Relative emits nothing
besides the state update. -/
theorem change_mode_transitions (st : TransState) (new : Mode) :
    (st.mode = new → change_mode new st = ("", st))
    ∧ (st.mode = .relative → new = .absolute →
        change_mode new st = (syncOutput, { st with mode := .absolute }))
    ∧ (st.mode = .absolute → new = .relative →
        change_mode new st = ("", { st with mode := .relative })) := by
  refine ⟨fun h => ?_, fun h1 h2 => ?_, fun h1 h2 => ?_⟩
  · unfold change_mode
    rw [if_pos h]
  · subst h2
    unfold change_mode
    rw [if_neg (by rw [h1]; exact fun hh => Mode.noConfusion hh), if_pos h1]
  · subst h2
    unfold change_mode
    rw [if_neg (by rw [h1]; exact fun hh => Mode.noConfusion hh),
      if_neg (by rw [h1]; exact fun hh => Mode.noConfusion hh)]

/-- C1 (witness): the amended transitions at concrete states. -/
theorem change_mode_transitions_witness :
    change_mode Mode.absolute { initState with mode := Mode.relative } =
      (syncOutput, { initState with mode := Mode.absolute })
    ∧ change_mode Mode.relative initState =
      ("", { initState with mode := Mode.relative }) := by
  constructor
  · exact (change_mode_transitions { initState with mode := Mode.relative } Mode.absolute).2.1
      rfl rfl
  · exact (change_mode_transitions initState Mode.relative).2.2 rfl rfl

/-- C2 (code bug): an in-bounds absolute move emits the device coordinates
but the position accumulators are incremented by them
(`parse_move.x += newx` runs in absolute mode too), not replaced, contrary
to the documented state model.  From position (146, 279) the same absolute
move emits `PA146,279;` again but leaves the position at (292, 558). -/
theorem abs_move_accumulates_position :
    parse_move "G00 X1.0 Y2.0".toList
        { mode := Mode.absolute, x := 146, y := 279, drill_dwell := ⟨7, 1⟩ } =
      .ok ("PA146,279;",
        { mode := Mode.absolute, x := 292, y := 558, drill_dwell := ⟨7, 1⟩ })
    ∧ ¬((292 : Int) = 146 ∧ (558 : Int) = 279) :=
  ⟨rfl, by decide⟩

/-- C3: for every in-bounds relative-mode move, the emitted `PR` operand is
the running total — the previous position plus the scaled delta of this
move — and the position after the move equals that emitted operand. -/
theorem rel_move_running_total (cs g1 g2 : List Char) (fx fy : Dec) (st : TransState)
    (hm : matchMoveChars cs = some (g1, g2)) (hmode : st.mode = .relative)
    (hfx : pyFloat g1 = some fx) (hfy : pyFloat g2 = some fy)
    (hx : st.x + (calfactor.mul fx).trunc ≤ xmax)
    (hy : st.y + (calfactor.mul fy).trunc ≤ ymax) :
    parse_move cs st = .ok
      ("PR" ++ toString (st.x + (calfactor.mul fx).trunc) ++ "," ++
        toString (st.y + (calfactor.mul fy).trunc) ++ ";",
       { st with x := st.x + (calfactor.mul fx).trunc,
                 y := st.y + (calfactor.mul fy).trunc }) :=
  parse_move_relEq cs g1 g2 fx fy st hm hmode hfx hfy hx hy

/-- C3 (witness): a relative move of (1.0, 1.0) from position (100, 200)
emits the running total `PR233,333;` and the position becomes (233, 333). -/
theorem rel_move_running_total_witness :
    parse_move "G01 X1.0 Y1.0".toList
        { mode := Mode.relative, x := 100, y := 200, drill_dwell := ⟨7, 1⟩ } =
      .ok ("PR233,333;",
        { mode := Mode.relative, x := 233, y := 333, drill_dwell := ⟨7, 1⟩ }) :=
  rel_move_running_total "G01 X1.0 Y1.0".toList ['1', '.', '0'] ['1', '.', '0']
    ⟨10, 1⟩ ⟨10, 1⟩ { mode := Mode.relative, x := 100, y := 200, drill_dwell := ⟨7, 1⟩ }
    rfl rfl rfl rfl (by decide) (by decide)

/-- C4 (code bug): a MoveXY line whose operands do not match the expected
shape, and a ToolChange line likewise, crash with the `AttributeError` of
`.group(...)` on a failed `re.match` — there is no ParseError carrying the
offending line. -/
theorem malformed_line_attribute_error :
    parse_line "G01 X5".toList false initState = .error .attributeError
    ∧ parse_tool_change "M06 hello".toList initState = .error .attributeError :=
  ⟨rfl, rfl⟩

/-- C5 (counterexample): with no far-side route and no mill source present,
the translated buffer still contains the full flip boundary (spindle off,
pen up, and the board-flip marker line). -/
theorem flip_boundary_without_far_side_cex :
    buildBuffer { drills := none, routes := [], farMill := none } =
      .ok (preamble ++ flipBoundary ++ postamble)
    ∧ hasSubstrL ("CO \"Please flip board.\"".toList)
        (preamble ++ flipBoundary ++ postamble).toList = true :=
  ⟨rfl, by decide⟩

/-- C5 (amended): the flip-boundary output (SpindleOff `!RM0;`, `PU;`, and
the board-flip marker line) is written unconditionally between the
near-side and far-side phases of every successfully translated job,
whether or not a far-side route or mill source is present. -/
theorem flip_boundary_unconditional (job : JobInputs) (s : String)
    (h : buildBuffer job = .ok s) :
    ∃ pre post, s = pre ++ (flipBoundary ++ post) := by
  unfold buildBuffer at h
  cases hp : phases job with
  | error e =>
    rw [hp] at h
    exact Except.noConfusion h
  | ok q =>
    obtain ⟨s1, s2, s4, s5⟩ := q
    rw [hp] at h
    have h2 : Except.ok (preamble ++ s1 ++ s2 ++ flipBoundary ++ s4 ++ s5 ++ postamble) =
        (Except.ok s : Except PyErr String) := h
    obtain rfl := (Except.ok.inj h2).symm
    refine ⟨preamble ++ s1 ++ s2, s4 ++ s5 ++ postamble, ?_⟩
    simp only [strAppend_assoc]

/-- C5 (witness): the amended statement at the empty job. -/
theorem flip_boundary_unconditional_witness :
    ∃ pre post, (preamble ++ flipBoundary ++ postamble : String) =
      pre ++ (flipBoundary ++ post) :=
  flip_boundary_unconditional { drills := none, routes := [], farMill := none }
    (preamble ++ flipBoundary ++ postamble) rfl

end PlotPCB

namespace PlotPCB

/-- C6: when a prefix of a phase's lines translates successfully and the
next (non-comment) line is a move past a bed limit, the whole phase fails
with that OutOfBounds termination — the lines after it are never
processed — and a job whose buffer construction fails that way hands no
command buffer to replay. -/
theorem oob_aborts_translation (pre post : List String) (line : String) (drill : Bool)
    (st0 st1 : TransState) (buf : String) (ax : Char) (v lim : Int)
    (hpre : processLines pre drill st0 = .ok (buf, st1))
    (hnc : hasPrefixL "(".toList (trimWs line.toList) = false)
    (hline : parse_line (trimWs line.toList) drill st1 = .error (.outOfBounds ax v lim)) :
    processLines (pre ++ line :: post) drill st0 = .error (.outOfBounds ax v lim)
    ∧ ∀ job : JobInputs, ∀ evs : List ReplayEvent,
        buildBuffer job = .error (.outOfBounds ax v lim) → runJob job ≠ .ok evs := by
  constructor
  · exact processLines_error_propagates pre post line drill st0 st1 buf _ hpre hnc hline
  · intro job evs hb hcon
    unfold runJob at hcon
    rw [hb] at hcon
    exact Except.noConfusion hcon

/-- C6 (witness): the move `G00 X400 Y0` computes device x 53345 > 42000;
translating it in a phase aborts with the OutOfBounds termination even
though a further line follows. -/
theorem oob_aborts_translation_witness :
    processLines (["G90"] ++ "G00 X400 Y0" :: ["G00 X1 Y1"]) true initState =
      .error (.outOfBounds 'X' 53345 42000) :=
  (oob_aborts_translation ["G90"] ["G00 X1 Y1"] "G00 X400 Y0" true initState initState ""
    'X' 53345 42000 rfl rfl rfl).1

/-- C7: for every in-bounds absolute-mode move, the emitted `PA`
coordinates are `int(calfactor * (offset + operand))`, which is truncation
toward zero of the exact real product, and which coincides with the floor
of `calibration * (offset + operand)` whenever that value is
nonnegative. -/
theorem abs_move_floor_formula (cs g1 g2 : List Char) (fx fy : Dec) (st : TransState)
    (hm : matchMoveChars cs = some (g1, g2)) (hmode : st.mode = .absolute)
    (hfx : pyFloat g1 = some fx) (hfy : pyFloat g2 = some fy)
    (hx : (calfactor.mul (xoff.add fx)).trunc ≤ xmax)
    (hy : (calfactor.mul (yoff.add fy)).trunc ≤ ymax) :
    parse_move cs st = .ok
      ("PA" ++ toString (calfactor.mul (xoff.add fx)).trunc ++ "," ++
        toString (calfactor.mul (yoff.add fy)).trunc ++ ";",
       { st with x := st.x + (calfactor.mul (xoff.add fx)).trunc,
                 y := st.y + (calfactor.mul (yoff.add fy)).trunc })
    ∧ (calfactor.mul (xoff.add fx)).trunc = pyInt (calfactor.toRat * (xoff.toRat + fx.toRat))
    ∧ (calfactor.mul (yoff.add fy)).trunc = pyInt (calfactor.toRat * (yoff.toRat + fy.toRat))
    ∧ (0 ≤ calfactor.toRat * (xoff.toRat + fx.toRat) →
        (calfactor.mul (xoff.add fx)).trunc = ⌊calfactor.toRat * (xoff.toRat + fx.toRat)⌋)
    ∧ (0 ≤ calfactor.toRat * (yoff.toRat + fy.toRat) →
        (calfactor.mul (yoff.add fy)).trunc = ⌊calfactor.toRat * (yoff.toRat + fy.toRat)⌋) := by
  have ex : (calfactor.mul (xoff.add fx)).trunc =
      pyInt (calfactor.toRat * (xoff.toRat + fx.toRat)) := by
    rw [Dec.trunc_toRat, Dec.toRat_mul, Dec.toRat_add]
  have ey : (calfactor.mul (yoff.add fy)).trunc =
      pyInt (calfactor.toRat * (yoff.toRat + fy.toRat)) := by
    rw [Dec.trunc_toRat, Dec.toRat_mul, Dec.toRat_add]
  refine ⟨parse_move_absEq cs g1 g2 fx fy st hm hmode hfx hfy hx hy, ex, ey,
    fun h0 => ?_, fun h0 => ?_⟩
  · rw [ex]
    unfold pyInt
    rw [if_pos h0]
  · rw [ey]
    unfold pyInt
    rw [if_pos h0]

/-- C7 (witness): operand (1.0, 2.0) with offset (0.1, 0.1) and calibration
133.33 produces exactly `PA146,279;`, and the emitted x-coordinate 146 is
the floor of the exact product. -/
theorem abs_move_floor_formula_witness :
    parse_move "G00 X1.0 Y2.0".toList initState =
      .ok ("PA146,279;", { mode := Mode.absolute, x := 146, y := 279, drill_dwell := ⟨7, 1⟩ })
    ∧ (146 : Int) = ⌊calfactor.toRat * (xoff.toRat + (⟨10, 1⟩ : Dec).toRat)⌋ := by
  have h := abs_move_floor_formula "G00 X1.0 Y2.0".toList ['1', '.', '0'] ['2', '.', '0']
    ⟨10, 1⟩ ⟨20, 1⟩ initState rfl rfl rfl rfl (by decide) (by decide)
  refine ⟨h.1, ?_⟩
  have h2 := h.2.2.2.1 (by norm_num [Dec.toRat, calfactor, xoff])
  exact h2

/-- C9: the bounds check rejects only coordinates strictly greater than the
per-axis maximum: a move whose computed device coordinate is negative or
zero on an axis raises no error and the (possibly negative) coordinate is
emitted in the device command, in absolute and in relative mode alike. -/
theorem no_lower_bound_check (cs g1 g2 : List Char) (fx fy : Dec) (st : TransState)
    (hm : matchMoveChars cs = some (g1, g2))
    (hfx : pyFloat g1 = some fx) (hfy : pyFloat g2 = some fy) :
    (st.mode = .absolute →
      ((calfactor.mul (xoff.add fx)).trunc ≤ 0 ∨ (calfactor.mul (yoff.add fy)).trunc ≤ 0) →
      (calfactor.mul (xoff.add fx)).trunc ≤ xmax →
      (calfactor.mul (yoff.add fy)).trunc ≤ ymax →
      parse_move cs st = .ok
        ("PA" ++ toString (calfactor.mul (xoff.add fx)).trunc ++ "," ++
          toString (calfactor.mul (yoff.add fy)).trunc ++ ";",
         { st with x := st.x + (calfactor.mul (xoff.add fx)).trunc,
                   y := st.y + (calfactor.mul (yoff.add fy)).trunc }))
    ∧ (st.mode = .relative →
      (st.x + (calfactor.mul fx).trunc ≤ 0 ∨ st.y + (calfactor.mul fy).trunc ≤ 0) →
      st.x + (calfactor.mul fx).trunc ≤ xmax →
      st.y + (calfactor.mul fy).trunc ≤ ymax →
      parse_move cs st = .ok
        ("PR" ++ toString (st.x + (calfactor.mul fx).trunc) ++ "," ++
          toString (st.y + (calfactor.mul fy).trunc) ++ ";",
         { st with x := st.x + (calfactor.mul fx).trunc,
                   y := st.y + (calfactor.mul fy).trunc })) :=
  ⟨fun hmode _ hx hy => parse_move_absEq cs g1 g2 fx fy st hm hmode hfx hfy hx hy,
   fun hmode _ hx hy => parse_move_relEq cs g1 g2 fx fy st hm hmode hfx hfy hx hy⟩

/-- C9 (witness): operand (-5, -5) computes device coordinates (-653, -653)
(truncation toward zero of -653.317); no error is raised and
`PA-653,-653;` is emitted. -/
theorem no_lower_bound_check_witness :
    parse_move "G00 X-5 Y-5".toList initState =
      .ok ("PA-653,-653;",
        { mode := Mode.absolute, x := -653, y := -653, drill_dwell := ⟨7, 1⟩ }) :=
  (no_lower_bound_check "G00 X-5 Y-5".toList ['-', '5'] ['-', '5'] ⟨-5, 0⟩ ⟨-5, 0⟩
      initState rfl rfl rfl).1
    rfl (Or.inl (by decide)) (by decide) (by decide)

/-- C8: during replay the channel receives exactly the nonempty units that
do not carry the marker prefix, in order, each with `';'` re-appended — so
a marker pseudo-command is never written as transmitted bytes — and every
marker unit whose text mentions `tool` or `flip` produces the
corresponding blocking operator interaction instead. -/
theorem replay_markers_intercepted (buf : String) :
    channelWrites buf =
      ((commandsOf buf).filter (fun c => !c.isEmpty && !hasPrefixL "CO".toList c)).map
        (fun c => String.mk (c ++ [';']))
    ∧ ∀ c ∈ commandsOf buf, hasPrefixL "CO".toList c = true →
        (∀ s, processCommand c ≠ some (.transmit s))
        ∧ (hasSubstrL "tool".toList c = true →
            processCommand c = some (.blockTool (String.mk c)))
        ∧ (hasSubstrL "tool".toList c = false → hasSubstrL "flip".toList c = true →
            processCommand c = some .blockFlip) := by
  constructor
  · exact writes_of_commands (commandsOf buf)
  · intro c hc hco
    have hne : c.isEmpty = false := isEmpty_false_of_marker c hco
    refine ⟨?_, fun h3 => ?_, fun h3 h4 => ?_⟩
    · intro s hcon
      unfold processCommand at hcon
      rw [hne, hco] at hcon
      cases h3 : hasSubstrL "tool".toList c with
      | true =>
        rw [h3] at hcon
        have hsome : some (ReplayEvent.blockTool (String.mk c)) =
            some (ReplayEvent.transmit s) := hcon
        exact ReplayEvent.noConfusion (Option.some.inj hsome)
      | false =>
        rw [h3] at hcon
        cases h4 : hasSubstrL "flip".toList c with
        | true =>
          rw [h4] at hcon
          have hsome : some ReplayEvent.blockFlip = some (ReplayEvent.transmit s) := hcon
          exact ReplayEvent.noConfusion (Option.some.inj hsome)
        | false =>
          rw [h4] at hcon
          have hnone : (none : Option ReplayEvent) = some (ReplayEvent.transmit s) := hcon
          exact Option.noConfusion hnone
    · unfold processCommand
      rw [hne, hco, h3]
      rfl
    · unfold processCommand
      rw [hne, hco, h3, h4]
      rfl

/-- C8 (witness): in a buffer with two device-command lines around a
board-flip marker line, the channel receives exactly the three device
commands, and the marker unit becomes a blocking flip interaction. -/
theorem replay_markers_intercepted_witness :
    channelWrites "PA1,2;PU;\nCO \"Please flip board.\"\nPD;" = ["PA1,2;", "PU;", "PD;"]
    ∧ processCommand ("CO \"Please flip board.\"".toList) = some .blockFlip := by
  have h := replay_markers_intercepted "PA1,2;PU;\nCO \"Please flip board.\"\nPD;"
  refine ⟨h.1.trans rfl, ?_⟩
  exact (h.2 ("CO \"Please flip board.\"".toList) (by decide) (by decide)).2.2
    (by decide) (by decide)

/-- C10: a marker unit (prefix `CO`) whose text mentions neither `tool` nor
`flip` is silently discarded during replay: it produces no event at all,
and erasing it from any command sequence leaves the replay events
unchanged. -/
theorem unknown_marker_discarded (c : List Char)
    (hco : hasPrefixL "CO".toList c = true)
    (ht : hasSubstrL "tool".toList c = false)
    (hf : hasSubstrL "flip".toList c = false) :
    processCommand c = none
    ∧ ∀ pre post : List (List Char),
        (pre ++ c :: post).filterMap processCommand =
          (pre ++ post).filterMap processCommand := by
  have hne : c.isEmpty = false := isEmpty_false_of_marker c hco
  have h1 : processCommand c = none := by
    unfold processCommand
    rw [hne, hco, ht, hf]
    rfl
  refine ⟨h1, fun pre post => ?_⟩
  rw [List.filterMap_append, List.filterMap_append, List.filterMap_cons_none h1]

/-- C10 (witness): the mode-change sync marker line is discarded — no
transmission, no blocking — and dropping it from a command sequence leaves
the replay events unchanged. -/
theorem unknown_marker_discarded_witness :
    processCommand ("CO \"wait for position response\"".toList) = none
    ∧ (["OS".toList] ++ "CO \"wait for position response\"".toList :: ["PA1,2".toList]).filterMap
        processCommand =
      (["OS".toList] ++ ["PA1,2".toList]).filterMap processCommand := by
  have h := unknown_marker_discarded ("CO \"wait for position response\"".toList)
    (by decide) (by decide) (by decide)
  exact ⟨h.1, h.2 ["OS".toList] ["PA1,2".toList]⟩

end PlotPCB
